/-
Verification of the HealthCareAI backend core services against their
natural-language specification.

The definitions below are a shallow embedding of the Python sources:
  * src/services/ai_agent.py      (query classification, session store,
                                   confidence heuristic, chat pipeline)
  * src/services/knowledge_base.py (hybrid search, dedup, context fetch)

Modelling conventions:
  * Python strings are Lean `String`s; `str.lower()` is modelled on the
    character list (ASCII case folding, which coincides with Python's
    behaviour on the ASCII keyword/query strings at issue).
  * `datetime.utcnow()` is modelled by a monotone `Nat` clock carried in
    the state; each state-mutating operation that reads the clock ticks it.
  * `uuid.uuid4()` is modelled by a counter-indexed token generator.
  * Python floats (confidence weights, score boosts) are modelled as `ℚ`.
  * `raise` / `except` is modelled with `Except`; a caught-and-swallowed
    exception shows up as the handler's return value.
-/
import Mathlib

/-! ## Generic helpers for Python list slicing -/

/-- Python's `l[-n:]` slice for a natural `n`: for `n = 0` the slice is
`l[0:]`, i.e. the whole list; for `n > 0` it is the last `min n (length l)`
elements. -/
def pyTakeLast (n : Nat) (l : List α) : List α :=
  if n = 0 then l else l.drop (l.length - n)

/-! ## Query classification (src/services/ai_agent.py, classify_query) -/

/-- The `QueryCategory` enum from src/models/schemas.py. -/
inductive QueryCategory where
  | symptoms
  | treatment
  | medication
  | side_effects
  | lifestyle
  | emotional_support
  | nutrition
  | follow_up_care
  | general
deriving DecidableEq, Repr

/-- The `ContentType` enum from src/models/schemas.py. -/
inductive ContentType where
  | medical_article
  | faq
  | patient_guide
  | research_summary
  | support_resource
deriving DecidableEq, Repr

/-- ASCII model of Python's `str.lower()` on one character. -/
def pyLowerChar (c : Char) : Char :=
  if 'A' ≤ c ∧ c ≤ 'Z' then Char.ofNat (c.toNat + 32) else c

/-- Model of Python's `str.lower()`. -/
def pyLower (s : List Char) : List Char :=
  s.map pyLowerChar

/-- Model of Python's substring test `needle in hay` on strings. -/
def containsSub (needle : List Char) : List Char → Bool
  | [] => needle.isEmpty
  | c :: rest => needle.isPrefixOf (c :: rest) || containsSub needle rest

/-- The `QUERY_CATEGORIES` keyword table of src/services/ai_agent.py,
in its declaration order. -/
def QUERY_CATEGORIES : List (QueryCategory × List String) :=
  [ (.symptoms, ["symptom", "pain", "lump", "discharge", "swelling", "fatigue", "tired", "ache"]),
    (.treatment, ["treatment", "surgery", "mastectomy", "lumpectomy", "radiation", "chemo", "therapy"]),
    (.medication, ["medicine", "medication", "drug", "tamoxifen", "herceptin", "dose", "prescription"]),
    (.side_effects, ["side effect", "nausea", "hair loss", "fatigue", "vomiting", "pain", "reaction"]),
    (.lifestyle, ["exercise", "diet", "sleep", "work", "travel", "activity", "daily life"]),
    (.emotional_support, ["scared", "anxious", "depressed", "worried", "cope", "support", "family", "feeling"]),
    (.nutrition, ["food", "eat", "diet", "nutrition", "supplement", "vitamin", "weight"]),
    (.follow_up_care, ["follow up", "checkup", "scan", "mammogram", "monitoring", "recurrence", "survivor"]) ]

/-- The per-category scores dict built by `classify_query`:
`score = sum(1 for keyword in keywords if keyword in query_lower)`,
in the declaration order of `QUERY_CATEGORIES`. -/
def catScores (query : String) : List (QueryCategory × Nat) :=
  QUERY_CATEGORIES.map fun p =>
    (p.1, p.2.countP fun k => containsSub k.data (pyLower query.data))

/-- Python's `max(scores.values())` (scores are Nats, so the 0 initial
accumulator does not change the maximum). -/
def maxScore (scores : List (QueryCategory × Nat)) : Nat :=
  scores.foldl (fun acc p => Nat.max acc p.2) 0

/-- One comparison step of Python's `max(scores, key=scores.get)`:
the running best is replaced only on a strictly greater value, so the
first key attaining the maximum wins. -/
def pickStep (b x : QueryCategory × Nat) : QueryCategory × Nat :=
  if b.2 < x.2 then x else b

/-- Python's `max(scores, key=scores.get)` over the insertion-ordered
scores: a first-max scan starting from the first entry. -/
def firstMax : List (QueryCategory × Nat) → QueryCategory × Nat
  | [] => (QueryCategory.general, 0)
  | p :: ps => ps.foldl pickStep p

/-- `classify_query` from src/services/ai_agent.py: score every category,
return the first category attaining the (positive) maximal score, and
`general` when every score is zero. -/
def classify_query (query : String) : QueryCategory :=
  let scores := catScores query
  if 0 < maxScore scores then (firstMax scores).1 else QueryCategory.general

/-! ## Session store (src/services/ai_agent.py, SessionManager) -/

/-- One entry of a session's `messages` list: a dict
`{"role": ..., "content": ..., "timestamp": utcnow().isoformat()}`. -/
structure StoredMsg where
  role : String
  content : String
  timestamp : Nat
deriving DecidableEq, Repr

/-- The per-session dict stored in `SessionManager._sessions`
(the unused `user_id` field is omitted). -/
structure SessionData where
  created_at : Nat
  last_active : Nat
  messages : List StoredMsg
deriving DecidableEq, Repr

/-- The mutable module state of `SessionManager`: the `_sessions` dict
(as a partial map), together with the model clock and the uuid counter. -/
structure AgentState where
  now : Nat
  uuidCtr : Nat
  sessions : String → Option SessionData

/-- The state of a freshly started process: no sessions. -/
def initState : AgentState :=
  { now := 0, uuidCtr := 0, sessions := fun _ => none }

/-- Model of `str(uuid.uuid4())`: the `n`-th generated token. -/
def freshToken (n : Nat) : String :=
  "uuid-" ++ Nat.repr n

/-- `SessionManager.get_or_create_session`: if the given id is truthy and
known, refresh its `last_active` and return it unchanged; otherwise store a
fresh session dict (with empty `messages`) under `session_id or uuid4()`
and return that id. -/
def get_or_create_session (sid? : Option String) (st : AgentState) :
    String × AgentState :=
  let given := sid?.getD ""
  if given ≠ "" ∧ (st.sessions given).isSome then
    (given,
      { st with
        sessions := fun k =>
          if k = given then
            (st.sessions given).map fun sd => { sd with last_active := st.now }
          else st.sessions k,
        now := st.now + 1 })
  else
    let newId := if given ≠ "" then given else freshToken st.uuidCtr
    (newId,
      { st with
        sessions := fun k =>
          if k = newId then some ⟨st.now, st.now, []⟩ else st.sessions k,
        uuidCtr := if given ≠ "" then st.uuidCtr else st.uuidCtr + 1,
        now := st.now + 1 })

/-- `SessionManager.add_message`: if the session exists, append a
timestamped message and truncate the history to `messages[-10:]`;
otherwise do nothing. -/
def add_message (sid role content : String) (st : AgentState) : AgentState :=
  match st.sessions sid with
  | none => st
  | some sd =>
    { st with
      sessions := fun k =>
        if k = sid then
          some { sd with
                 messages := pyTakeLast 10 (sd.messages ++ [⟨role, content, st.now⟩]) }
        else st.sessions k,
      now := st.now + 1 }

/-- `SessionManager.get_history`: `messages[-max_messages:]` of a known
session, `[]` for an unknown one. -/
def get_history (sid : String) (max_messages : Nat) (st : AgentState) :
    List StoredMsg :=
  match st.sessions sid with
  | none => []
  | some sd => pyTakeLast max_messages sd.messages

/-- `SessionManager.clear_session`: delete the session if present
(idempotent). -/
def clear_session (sid : String) (st : AgentState) : AgentState :=
  { st with sessions := fun k => if k = sid then none else st.sessions k }

/-! ### Operation sequences over the session store (for the C4 invariant) -/

/-- One session-store operation, as named in the spec (section 4.1). -/
inductive SessionOp where
  | getOrCreate (sid? : Option String)
  | append (sid role content : String)
  | history (sid : String) (maxMessages : Nat)
  | clear (sid : String)

/-- Apply one operation to the store state (`history` is read-only). -/
def applyOp (st : AgentState) : SessionOp → AgentState
  | .getOrCreate sid? => (get_or_create_session sid? st).2
  | .append sid role content => add_message sid role content st
  | .history _ _ => st
  | .clear sid => clear_session sid st

/-- Run a sequence of operations. -/
def runOps : List SessionOp → AgentState → AgentState
  | [], st => st
  | op :: ops, st => runOps ops (applyOp st op)

/-- Ghost log of a single operation: the message it actually appends to
session `sid` (an `append` is effective exactly when the session exists
at that moment, matching `add_message`), with the timestamp it is stored
with. -/
def opLog (sid : String) (st : AgentState) : SessionOp → List StoredMsg
  | .append s role content =>
    if s = sid ∧ (st.sessions s).isSome then [⟨role, content, st.now⟩] else []
  | _ => []

/-- Ghost log of an operation sequence: all messages actually appended to
session `sid`, in append order. -/
def appendLogFrom (sid : String) : List SessionOp → AgentState → List StoredMsg
  | [], _ => []
  | op :: ops, st => opLog sid st op ++ appendLogFrom sid ops (applyOp st op)

/-- The messages currently stored for `sid` (empty when the session is
absent). -/
def msgsOf (st : AgentState) (sid : String) : List StoredMsg :=
  match st.sessions sid with
  | none => []
  | some sd => sd.messages

/-! ## Chat pipeline (src/services/ai_agent.py, chat_with_agent) -/

/-- A knowledge-source dict as produced by
`KnowledgeBaseService.get_relevant_context` and consumed by the agent. -/
structure SourceDoc where
  title : String
  content : String
  content_type : ContentType
  category : QueryCategory
  score : ℚ
  url : Option String
deriving DecidableEq

/-- A `SourceCitation` of src/models/schemas.py as built in
`chat_with_agent`. -/
structure Citation where
  title : String
  content_type : ContentType
  relevance_score : ℚ
  source_url : Option String
  excerpt : String
deriving DecidableEq

/-- The `ChatResponse` envelope (latency and the constant disclaimer
field are omitted: wall-clock time is outside the model). -/
structure ChatResponseM where
  answer : String
  session_id : String
  query_category : QueryCategory
  sources : List Citation
  confidence_score : ℚ

/-- `BreastCancerCompanionAgent._calculate_confidence`: base 0.7,
`+0.1` when source documents were supplied, `+0.05` when the answer is
longer than 500 characters, capped at 0.95. -/
def calculate_confidence (response : String) (sources : List SourceDoc) : ℚ :=
  let confidence : ℚ := 7/10
  let confidence := if 0 < sources.length then confidence + 1/10 else confidence
  let confidence := if 500 < response.length then confidence + 1/20 else confidence
  min confidence (19/20)

/-- `chat_with_agent` from src/services/ai_agent.py.

The two external collaborators are passed as oracles:
`retrieve` stands for the Retrieval Engine (`KnowledgeBaseService`
search / `get_relevant_context`) that the repository exposes, and
`generate` for the Generation Provider call made inside
`BreastCancerCompanionAgent.generate_response` (question, knowledge
sources and prior conversation history determine the prompt).

Note: mirroring the source, the body never invokes `retrieve`; the line
`knowledge_sources = []` translates the `TODO` at
src/services/ai_agent.py:319-321. -/
def chat_with_agent
    (retrieve : String → List SourceDoc)
    (generate : String → List SourceDoc → List StoredMsg → String)
    (message : String) (session_id? : Option String)
    (include_sources : Bool) (st : AgentState) : ChatResponseM × AgentState :=
  let r := get_or_create_session session_id? st
  let session_id := r.1
  let st1 := add_message session_id "user" message r.2
  let query_category := classify_query message
  let history := get_history session_id 5 st1
  let knowledge_sources : List SourceDoc := []
  let answer := generate message knowledge_sources history.dropLast
  let confidence := calculate_confidence answer knowledge_sources
  let st2 := add_message session_id "assistant" answer st1
  let sources : List Citation :=
    if include_sources ∧ knowledge_sources ≠ [] then
      knowledge_sources.map fun s =>
        { title := s.title
          content_type := s.content_type
          relevance_score := s.score
          source_url := s.url
          excerpt := String.mk (s.content.data.take 200) }
    else []
  ({ answer := answer
     session_id := session_id
     query_category := query_category
     sources := sources
     confidence_score := confidence }, st2)

/-! ## Knowledge-base search (src/services/knowledge_base.py) -/

/-- One OpenSearch hit as consumed by `KnowledgeBaseService.search`:
the engine id (`_id`), the optional `document_id` source field, the
blended relevance score and the indexed source fields. -/
structure Hit where
  uid : String
  document_id : Option String
  score : ℚ
  title : String
  content : String
  content_type : ContentType
  category : QueryCategory
  source_url : Option String
deriving DecidableEq

/-- `doc_id = source.get("document_id", hit["_id"])`. -/
def hitDocId (h : Hit) : String :=
  h.document_id.getD h.uid

/-- A `KnowledgeSearchResult` of src/models/schemas.py. -/
structure KBResult where
  document_id : String
  title : String
  content_excerpt : String
  relevance_score : ℚ
  content_type : ContentType
  category : QueryCategory
  source_url : Option String
deriving DecidableEq

/-- A `KnowledgeSearchResponse` (the wall-clock `search_time_ms` field is
outside the model). -/
structure KBSearchResponse where
  results : List KBResult
  total_results : Nat
deriving DecidableEq

/-- The hybrid query body built by `KnowledgeBaseService.search`:
oversampled size, a knn clause on the query embedding, a boosted
multi-field keyword clause, and term filters. -/
structure HybridQuery where
  size : Nat
  knnVector : Option (List ℚ × Nat)
  keyword : String
  keywordBoost : ℚ
  filters : List (String × String)
deriving DecidableEq

/-- Failure channel of `search`: the `ValueError` raised on a falsy
embedding, or a re-raised index error. -/
inductive SearchErr where
  | embeddingFailed
  | indexFailed (msg : String)
deriving DecidableEq

/-- The string value of a `QueryCategory` enum member. -/
def catValue : QueryCategory → String
  | .symptoms => "symptoms"
  | .treatment => "treatment"
  | .medication => "medication"
  | .side_effects => "side_effects"
  | .lifestyle => "lifestyle"
  | .emotional_support => "emotional_support"
  | .nutrition => "nutrition"
  | .follow_up_care => "follow_up_care"
  | .general => "general"

/-- The string value of a `ContentType` enum member. -/
def ctValue : ContentType → String
  | .medical_article => "medical_article"
  | .faq => "faq"
  | .patient_guide => "patient_guide"
  | .research_summary => "research_summary"
  | .support_resource => "support_resource"

/-- The `filters` list built at the top of `search`. -/
def mkFilters (category : Option QueryCategory) (content_type : Option ContentType) :
    List (String × String) :=
  (match category with
   | some c => [("category", catValue c)]
   | none => []) ++
  (match content_type with
   | some t => [("content_type", ctValue t)]
   | none => [])

/-- The `hybrid_query` dict of `search`: `size = limit * 2`, a knn clause
requesting `k = limit * 2` neighbours of the query embedding, and the
keyword clause boosted by `KEYWORD_WEIGHT / VECTOR_WEIGHT = 0.3 / 0.7`. -/
def buildHybridQuery (emb : List ℚ) (query : String)
    (filters : List (String × String)) (limit : Nat) : HybridQuery :=
  { size := limit * 2
    knnVector := some (emb, limit * 2)
    keyword := query
    keywordBoost := (3/10) / (7/10)
    filters := filters }

/-- `KnowledgeSearchResult(...)` as built for one hit (content excerpt is
`content[:500]`). -/
def mkResult (h : Hit) : KBResult :=
  { document_id := hitDocId h
    title := h.title
    content_excerpt := String.mk (h.content.data.take 500)
    relevance_score := h.score
    content_type := h.content_type
    category := h.category
    source_url := h.source_url }

/-- The result-collection loop of `search`: walk the hits in engine order,
skip a hit whose document id was already seen, append otherwise, and break
as soon as `len(results) >= limit` after an append. `k` is the number of
results collected so far. -/
def collectResults (limit : Nat) : List Hit → List String → Nat → List KBResult
  | [], _, _ => []
  | h :: hs, seen, k =>
    let did := hitDocId h
    if did ∈ seen then collectResults limit hs seen k
    else if limit ≤ k + 1 then [mkResult h]
    else mkResult h :: collectResults limit hs (did :: seen) (k + 1)

/-- The deduplicated result list produced by `search` from the raw hits. -/
def searchResults (hits : List Hit) (limit : Nat) : List KBResult :=
  collectResults limit hits [] 0

/-- `KnowledgeBaseService.search`.  External collaborators are oracles:
`embed` is `EmbeddingService.create_embedding` (`none` models the `None`
returned when the Bedrock call throws) and `index` is the OpenSearch
`client.search` call (`Except.error` models a raised query error).

Mirroring the source, the `use_vectors` constructor flag is accepted but
never consulted: the embedding is always requested (`if not
query_embedding: raise ValueError`) and the query always carries the knn
clause. -/
def searchKB (embed : String → Option (List ℚ))
    (index : HybridQuery → Except String (List Hit))
    (use_vectors : Bool) (query : String)
    (category : Option QueryCategory) (content_type : Option ContentType)
    (limit : Nat) : Except SearchErr KBSearchResponse :=
  let filters := mkFilters category content_type
  match embed query with
  | none => .error .embeddingFailed
  | some [] => .error .embeddingFailed
  | some emb =>
    match index (buildHybridQuery emb query filters limit) with
    | .error e => .error (.indexFailed e)
    | .ok hits =>
      let results := searchResults hits limit
      .ok { results := results, total_results := results.length }

/-- `KnowledgeBaseService.get_relevant_context`: run `search` with the
query and category and map the results to source dicts — but catch any
failure and return `[]` (the `except` block of the source). -/
def get_relevant_contextKB (embed : String → Option (List ℚ))
    (index : HybridQuery → Except String (List Hit))
    (use_vectors : Bool) (query : String)
    (category : Option QueryCategory) (limit : Nat) : List SourceDoc :=
  match searchKB embed index use_vectors query category none limit with
  | .error _ => []
  | .ok resp =>
    resp.results.map fun r =>
      { title := r.title
        content := r.content_excerpt
        content_type := r.content_type
        category := r.category
        score := r.relevance_score
        url := r.source_url }

/-! ### Specification-side dedup (for the C8 refinement statement) -/

/-- Dedup written after the spec's words: keep the first occurrence of
every document id, in the engine's returned order. -/
def dedupFirstSpec : List Hit → List String → List Hit
  | [], _ => []
  | h :: hs, seen =>
    if hitDocId h ∈ seen then dedupFirstSpec hs seen
    else h :: dedupFirstSpec hs (hitDocId h :: seen)

/-! ## Concrete fixtures used by witnesses and counterexamples -/

/-- A Retrieval Engine stub returning no documents. -/
def noRetrieve : String → List SourceDoc := fun _ => []

/-- A Generation Provider stub returning a fixed answer. -/
def constGenerate : String → List SourceDoc → List StoredMsg → String :=
  fun _ _ _ => "ok"

/-- An Embedding Provider that always fails (the Bedrock call throws, so
`create_embedding` returns `None`). -/
def failEmbed : String → Option (List ℚ) := fun _ => none

/-- An Embedding Provider that always returns a fixed vector. -/
def okEmbed : String → Option (List ℚ) := fun _ => some [1, 0]

/-- A Document Index whose query call always succeeds with no hits. -/
def emptyIndex : HybridQuery → Except String (List Hit) := fun _ => .ok []

/-- A Document Index whose query call always fails. -/
def errIndex : HybridQuery → Except String (List Hit) := fun _ => .error "boom"

/-- Three hits in which document id `d1` occurs twice. -/
def dupHits : List Hit :=
  [ { uid := "a", document_id := some "d1", score := 2, title := "T1",
      content := "C1", content_type := .faq, category := .general, source_url := none },
    { uid := "b", document_id := some "d1", score := 1, title := "T1 again",
      content := "C1b", content_type := .faq, category := .general, source_url := none },
    { uid := "c", document_id := some "d2", score := 1, title := "T2",
      content := "C2", content_type := .faq, category := .general, source_url := none } ]

/-- A tiny concrete session store with one known session `x`. -/
def sampleState : AgentState :=
  { now := 2, uuidCtr := 0,
    sessions := fun k =>
      if k = "x" then some ⟨0, 0, [⟨"user", "hi", 1⟩]⟩ else none }

/-- The spec's truncation scenario: create a session and append 15
messages to it. -/
def scenarioOps : List SessionOp :=
  .getOrCreate (some "s") ::
    ((List.range 15).map fun i => .append "s" "user" ("m" ++ Nat.repr (i + 1)))

/-- The last 10 of the 15 scenario messages, with the timestamps they
received (message `i` was appended at model time `i`). -/
def expectedLast10 : List StoredMsg :=
  (List.range 10).map fun i => ⟨"user", "m" ++ Nat.repr (i + 6), i + 6⟩

/-! # Helper lemmas -/

theorem pyTakeLast_suffix (n : Nat) (l : List α) : pyTakeLast n l <:+ l := by
  unfold pyTakeLast
  split
  · exact List.suffix_rfl
  · exact List.drop_suffix _ _

theorem pyTakeLast_length_le (n : Nat) (l : List α) (hn : n ≠ 0) :
    (pyTakeLast n l).length ≤ n := by
  unfold pyTakeLast
  rw [if_neg hn, List.length_drop]
  omega

theorem pyTakeLast_zero (l : List α) : pyTakeLast 0 l = l := rfl

theorem suffix_append_right {l₁ l₂ : List α} (r : List α) (h : l₁ <:+ l₂) :
    l₁ ++ r <:+ l₂ ++ r := by
  obtain ⟨t, ht⟩ := h
  exact ⟨t, by rw [← ht, List.append_assoc]⟩

/-! # Claim theorems -/

/-- C3: for every generated answer and every list of supplied source
documents, the confidence heuristic returns exactly
`min (0.70 + (0.10 if sources ≠ []) + (0.05 if length > 500)) 0.95`,
and the value always lies in the interval `[0.70, 0.95]`. -/
theorem calculate_confidence_spec (response : String) (sources : List SourceDoc) :
    calculate_confidence response sources =
      min ((7 : ℚ)/10 + (if sources ≠ [] then (1 : ℚ)/10 else 0) +
             (if 500 < response.length then (1 : ℚ)/20 else 0)) (19/20) ∧
    (7 : ℚ)/10 ≤ calculate_confidence response sources ∧
    calculate_confidence response sources ≤ 19/20 := by
  unfold calculate_confidence
  rcases sources with _ | ⟨s, ss⟩ <;>
    by_cases hlen : 500 < response.length <;>
      simp [hlen, min_def] <;> norm_num

/-- C10: for every known session, `get_history` with `max_messages = 0`
returns the session's entire stored history, because the source slices
with `messages[-0:]`, which is the whole list. -/
theorem get_history_zero_returns_all (st : AgentState) (sid : String)
    (sd : SessionData) (h : st.sessions sid = some sd) :
    get_history sid 0 st = sd.messages := by
  simp [get_history, h, pyTakeLast_zero]

/-- Witness for C10 at a concrete store. -/
theorem get_history_zero_returns_all_witness :
    sampleState.sessions "x" = some ⟨0, 0, [⟨"user", "hi", 1⟩]⟩ ∧
    get_history "x" 0 sampleState = [⟨"user", "hi", 1⟩] :=
  ⟨by decide,
   get_history_zero_returns_all sampleState "x" ⟨0, 0, [⟨"user", "hi", 1⟩]⟩ (by decide)⟩

/-- C7 (counterexample): the chat response to
"What are the side effects of chemo?" does NOT carry category
`side_effects`: the keyword scores tie at 1 between `treatment` (keyword
"chemo") and `side_effects` (keyword "side effect"), and the first-max
scan keeps the earlier-declared `treatment`. -/
theorem chat_chemo_not_side_effects :
    (chat_with_agent noRetrieve constGenerate
        "What are the side effects of chemo?" none true initState).1.query_category
      ≠ QueryCategory.side_effects := by
  decide

/-- C7 (amended): calling chat with "What are the side effects of chemo?"
yields a response whose classified query category is `treatment`, for any
providers, any prior store and any session argument. -/
theorem chat_chemo_category_treatment
    (retrieve : String → List SourceDoc)
    (generate : String → List SourceDoc → List StoredMsg → String)
    (sid? : Option String) (include_sources : Bool) (st : AgentState) :
    (chat_with_agent retrieve generate
        "What are the side effects of chemo?" sid? include_sources st).1.query_category
      = QueryCategory.treatment := by
  show classify_query "What are the side effects of chemo?" = QueryCategory.treatment
  decide

/-- C1: the chat pipeline supplies the constant empty list as the
knowledge sources of the generation step and never consults the
Retrieval Engine: the whole result is invariant under the retrieval
oracle, the generation oracle is invoked with `[]` as its source
documents, and the response's citation list is empty.  (This contradicts
the spec's step "Run Retrieval Engine search using the message as query";
the source marks the search as an unimplemented TODO.) -/
theorem chat_supplies_no_retrieval
    (retrieve retrieve' : String → List SourceDoc)
    (generate : String → List SourceDoc → List StoredMsg → String)
    (message : String) (sid? : Option String) (include_sources : Bool)
    (st : AgentState) :
    chat_with_agent retrieve generate message sid? include_sources st =
      chat_with_agent retrieve' generate message sid? include_sources st ∧
    (∃ hist, (chat_with_agent retrieve generate message sid? include_sources st).1.answer
        = generate message [] hist) ∧
    (chat_with_agent retrieve generate message sid? include_sources st).1.sources = [] := by
  refine ⟨rfl, ⟨_, rfl⟩, ?_⟩
  cases include_sources <;> rfl

/-- C5 (counterexample): with `use_vectors = false` the search still
requires a query embedding, so an Embedding Provider failure fails the
whole search — refuting "this mode never fails due to embedding
unavailability". -/
theorem search_without_vectors_fails_counterexample :
    searchKB failEmbed emptyIndex false "What is chemotherapy?" none none 10
      = .error .embeddingFailed := rfl

/-- C5 (amended): the `use_vectors` flag has no effect on the search
operation: the degraded keyword-only mode is not implemented.  Search
behaves identically with the flag off and on, and when the Embedding
Provider fails the search fails with the embedding error (it still
builds the hybrid vector+keyword query otherwise). -/
theorem use_vectors_flag_has_no_effect
    (embed : String → Option (List ℚ))
    (index : HybridQuery → Except String (List Hit))
    (query : String) (category : Option QueryCategory)
    (content_type : Option ContentType) (limit : Nat) :
    searchKB embed index false query category content_type limit =
      searchKB embed index true query category content_type limit ∧
    (embed query = none →
      searchKB embed index false query category content_type limit
        = .error .embeddingFailed) := by
  refine ⟨rfl, fun h => ?_⟩
  simp [searchKB, h]

/-- Witness for C5's amended theorem at concrete providers. -/
theorem use_vectors_flag_has_no_effect_witness :
    failEmbed "chemo side effects" = none ∧
    searchKB failEmbed emptyIndex false "chemo side effects" none none 10
      = .error .embeddingFailed :=
  ⟨rfl,
   (use_vectors_flag_has_no_effect failEmbed emptyIndex
      "chemo side effects" none none 10).2 rfl⟩

/-- C6 (counterexample): on an Embedding Provider failure the search
errors, but the context-fetching caller `get_relevant_context` swallows
the failure and returns the empty list — refuting "callers ... never
silently return empty results". -/
theorem context_swallows_failure_counterexample :
    searchKB failEmbed emptyIndex true "managing nausea" none none 5
      = .error .embeddingFailed ∧
    get_relevant_contextKB failEmbed emptyIndex true "managing nausea" none 5
      = [] :=
  ⟨rfl, rfl⟩

/-- C6 (amended): an Embedding Provider failure (no vector or an empty
vector) and an index-query failure both make the search operation fail
with a propagated error, but the caller that fetches context for the
agent (`get_relevant_context`) catches any search failure and returns an
empty list instead of propagating it. -/
theorem search_failure_propagation
    (embed : String → Option (List ℚ))
    (index : HybridQuery → Except String (List Hit))
    (uv : Bool) (query : String) (category : Option QueryCategory)
    (content_type : Option ContentType) (limit : Nat) :
    ((embed query = none ∨ embed query = some []) →
      searchKB embed index uv query category content_type limit
        = .error .embeddingFailed) ∧
    (∀ emb msg, embed query = some emb → emb ≠ [] →
      index (buildHybridQuery emb query (mkFilters category content_type) limit)
        = .error msg →
      searchKB embed index uv query category content_type limit
        = .error (.indexFailed msg)) ∧
    (∀ err, searchKB embed index uv query category none limit = .error err →
      get_relevant_contextKB embed index uv query category limit = []) := by
  refine ⟨fun h => ?_, fun emb msg he hne hi => ?_, fun err h => ?_⟩
  · rcases h with h | h <;> simp [searchKB, h]
  · rcases emb with _ | ⟨x, xs⟩
    · exact absurd rfl hne
    · simp [searchKB, he, hi]
  · simp [get_relevant_contextKB, h]

/-- Witness for C6's amended theorem: a failing embedder and a failing
index, each at concrete inputs. -/
theorem search_failure_propagation_witness :
    (searchKB failEmbed emptyIndex true "coping with anxiety" none none 5
       = .error .embeddingFailed ∧
     get_relevant_contextKB failEmbed emptyIndex true "coping with anxiety" none 5
       = []) ∧
    searchKB okEmbed errIndex true "coping with anxiety" none none 5
      = .error (.indexFailed "boom") :=
  ⟨⟨(search_failure_propagation failEmbed emptyIndex true
       "coping with anxiety" none none 5).1 (Or.inl rfl),
    (search_failure_propagation failEmbed emptyIndex true
       "coping with anxiety" none none 5).2.2 .embeddingFailed
      ((search_failure_propagation failEmbed emptyIndex true
          "coping with anxiety" none none 5).1 (Or.inl rfl))⟩,
   (search_failure_propagation okEmbed errIndex true
      "coping with anxiety" none none 5).2.1 [1, 0] "boom" rfl (by decide) rfl⟩

/-- The collection loop equals first-occurrence dedup truncated to the
remaining budget, as long as some budget remains. -/
theorem collectResults_eq_dedup (limit : Nat) :
    ∀ (hits : List Hit) (seen : List String) (k : Nat), k < limit →
      collectResults limit hits seen k
        = ((dedupFirstSpec hits seen).take (limit - k)).map mkResult := by
  intro hits
  induction hits with
  | nil => intro seen k _; simp [collectResults, dedupFirstSpec]
  | cons h hs ih =>
    intro seen k hk
    by_cases hmem : hitDocId h ∈ seen
    · simp [collectResults, dedupFirstSpec, hmem, ih seen k hk]
    · by_cases hlim : limit ≤ k + 1
      · have hl : limit - k = 1 := by omega
        simp [collectResults, dedupFirstSpec, hmem, hlim, hl]
      · have hl : limit - k = (limit - (k + 1)) + 1 := by omega
        simp [collectResults, dedupFirstSpec, hmem, hlim, hl,
              ih (hitDocId h :: seen) (k + 1) (by omega)]

/-- First-occurrence dedup produces pairwise distinct document ids, none
of which was previously seen. -/
theorem dedupFirstSpec_nodup :
    ∀ (hits : List Hit) (seen : List String),
      ((dedupFirstSpec hits seen).map hitDocId).Nodup ∧
      ∀ h ∈ dedupFirstSpec hits seen, hitDocId h ∉ seen := by
  intro hits
  induction hits with
  | nil => intro seen; simp [dedupFirstSpec]
  | cons h hs ih =>
    intro seen
    by_cases hmem : hitDocId h ∈ seen
    · simpa [dedupFirstSpec, hmem] using ih seen
    · obtain ⟨ihn, ihs⟩ := ih (hitDocId h :: seen)
      refine ⟨?_, ?_⟩
      · rw [dedupFirstSpec, if_neg hmem, List.map_cons, List.nodup_cons]
        refine ⟨?_, ihn⟩
        intro hin
        obtain ⟨x, hx, hxeq⟩ := List.mem_map.mp hin
        exact (ihs x hx) (by rw [hxeq]; exact List.mem_cons_self _ _)
      · rw [dedupFirstSpec, if_neg hmem]
        intro x hx
        rcases List.mem_cons.mp hx with rfl | hx
        · exact hmem
        · exact fun hc => (ihs x hx) (List.mem_cons_of_mem _ hc)

/-- C8: for every hit list and every positive limit, the search's result
list is the first-occurrence dedup of the hits (in the engine's returned
order) truncated to `limit`; consequently each document id occurs at most
once and at most `limit` results are returned.  Any successful search
returns exactly such a collection over the hits the index produced. -/
theorem search_dedup_spec (hits : List Hit) (limit : Nat) (hlim : 1 ≤ limit) :
    searchResults hits limit = ((dedupFirstSpec hits []).take limit).map mkResult ∧
    ((searchResults hits limit).map fun r => r.document_id).Nodup ∧
    (searchResults hits limit).length ≤ limit ∧
    (∀ embed index uv q cat ct r,
      searchKB embed index uv q cat ct limit = .ok r →
      ∃ hs, r.results = searchResults hs limit) := by
  have h1 : searchResults hits limit
      = ((dedupFirstSpec hits []).take limit).map mkResult := by
    have := collectResults_eq_dedup limit hits [] 0 (by omega)
    simpa [searchResults] using this
  have hmap : ((searchResults hits limit).map fun r => r.document_id)
      = ((dedupFirstSpec hits []).take limit).map hitDocId := by
    rw [h1, List.map_map]
    rfl
  refine ⟨h1, ?_, ?_, ?_⟩
  · rw [hmap]
    exact ((dedupFirstSpec_nodup hits []).1).sublist
      ((List.take_sublist _ _).map _)
  · rw [h1, List.length_map]
    exact List.length_take_le _ _
  · intro embed index uv q cat ct r hr
    unfold searchKB at hr
    simp only [] at hr
    split at hr
    · exact absurd hr (by simp)
    · exact absurd hr (by simp)
    · split at hr
      · exact absurd hr (by simp)
      · simp only [Except.ok.injEq] at hr
        subst hr
        exact ⟨_, rfl⟩

/-- Witness for C8: three hits in which id `d1` occurs twice, with
limit 2. -/
theorem search_dedup_spec_witness :
    (1 ≤ 2) ∧
    (searchResults dupHits 2 = ((dedupFirstSpec dupHits []).take 2).map mkResult ∧
     ((searchResults dupHits 2).map fun r => r.document_id).Nodup ∧
     (searchResults dupHits 2).length ≤ 2 ∧
     (∀ embed index uv q cat ct r,
       searchKB embed index uv q cat ct 2 = .ok r →
       ∃ hs, r.results = searchResults hs 2)) :=
  ⟨by decide, search_dedup_spec dupHits 2 (by decide)⟩

/-- C9: for an unseen non-empty session id, `get_or_create_session`
returns that id and stores a fresh session with empty history; a repeated
call returns the same id unchanged, preserves the history and creation
time, and refreshes the last-active timestamp; with no id (or the empty,
falsy id) a newly generated token is returned and given a fresh empty
session.  The operation is a total function: it has no error path. -/
theorem get_or_create_session_spec (st : AgentState) (s : String)
    (hunk : st.sessions s = none) (hs : s ≠ "") :
    (get_or_create_session (some s) st).1 = s ∧
    (get_or_create_session (some s) st).2.sessions s = some ⟨st.now, st.now, []⟩ ∧
    (get_or_create_session (some s) (get_or_create_session (some s) st).2).1 = s ∧
    (get_or_create_session (some s) (get_or_create_session (some s) st).2).2.sessions s
      = some ⟨st.now, st.now + 1, []⟩ ∧
    (get_or_create_session none st).1 = freshToken st.uuidCtr ∧
    (get_or_create_session none st).2.sessions (freshToken st.uuidCtr)
      = some ⟨st.now, st.now, []⟩ ∧
    (get_or_create_session (some "") st).1 = freshToken st.uuidCtr := by
  refine ⟨?_, ?_, ?_, ?_, ?_, ?_, ?_⟩ <;>
    simp [get_or_create_session, hunk, hs]

/-- Witness for C9 starting from the empty store. -/
theorem get_or_create_session_spec_witness :
    initState.sessions "abc" = none ∧ ("abc" : String) ≠ "" ∧
    ((get_or_create_session (some "abc") initState).1 = "abc" ∧
     (get_or_create_session (some "abc") initState).2.sessions "abc"
       = some ⟨0, 0, []⟩ ∧
     (get_or_create_session (some "abc")
        (get_or_create_session (some "abc") initState).2).1 = "abc" ∧
     (get_or_create_session (some "abc")
        (get_or_create_session (some "abc") initState).2).2.sessions "abc"
       = some ⟨0, 1, []⟩ ∧
     (get_or_create_session none initState).1 = freshToken 0 ∧
     (get_or_create_session none initState).2.sessions (freshToken 0)
       = some ⟨0, 0, []⟩ ∧
     (get_or_create_session (some "") initState).1 = freshToken 0) :=
  ⟨rfl, by decide, get_or_create_session_spec initState "abc" rfl (by decide)⟩

/-- The fold computing `max(scores.values())` dominates its initial
accumulator. -/
theorem foldl_max_init_le :
    ∀ (l : List (QueryCategory × Nat)) (a : Nat),
      a ≤ l.foldl (fun acc q => Nat.max acc q.2) a := by
  intro l
  induction l with
  | nil => intro a; exact le_refl a
  | cons x xs ih =>
    intro a
    exact le_trans (Nat.le_max_left a x.2) (ih (Nat.max a x.2))

/-- Every score is bounded by `max(scores.values())`. -/
theorem foldl_max_ge_mem :
    ∀ (l : List (QueryCategory × Nat)) (a : Nat) (p : QueryCategory × Nat),
      p ∈ l → p.2 ≤ l.foldl (fun acc q => Nat.max acc q.2) a := by
  intro l
  induction l with
  | nil => intro a p hp; exact absurd hp (List.not_mem_nil p)
  | cons x xs ih =>
    intro a p hp
    rcases List.mem_cons.mp hp with rfl | hp
    · exact le_trans (Nat.le_max_right a p.2) (foldl_max_init_le xs _)
    · exact ih _ p hp

/-- If every score is zero, `max(scores.values())` is zero. -/
theorem foldl_max_zero :
    ∀ (l : List (QueryCategory × Nat)), (∀ p ∈ l, p.2 = 0) →
      l.foldl (fun acc q => Nat.max acc q.2) 0 = 0 := by
  intro l
  induction l with
  | nil => intro _; rfl
  | cons x xs ih =>
    intro h
    have hx : x.2 = 0 := h x (List.mem_cons_self x xs)
    have hxs : ∀ p ∈ xs, p.2 = 0 := fun p hp => h p (List.mem_cons_of_mem x hp)
    simpa [hx] using ih hxs

/-- The first-max scan starting from accumulator `b` either keeps `b`
(when nothing beats it strictly) or lands on the first list entry whose
value strictly exceeds `b` and everything before it, and in either case
the result dominates all values. -/
theorem foldl_pickStep_spec :
    ∀ (l : List (QueryCategory × Nat)) (b : QueryCategory × Nat),
      (l.foldl pickStep b = b ∧ ∀ x ∈ l, x.2 ≤ b.2) ∨
      (∃ i, ∃ hi : i < l.length, l.foldl pickStep b = l.get ⟨i, hi⟩ ∧
        b.2 < (l.get ⟨i, hi⟩).2 ∧
        (∀ j (hj : j < i), (l.get ⟨j, by omega⟩).2 < (l.get ⟨i, hi⟩).2) ∧
        (∀ x ∈ l, x.2 ≤ (l.get ⟨i, hi⟩).2)) := by
  intro l
  induction l with
  | nil =>
    intro b
    exact Or.inl ⟨rfl, by simp⟩
  | cons x xs ih =>
    intro b
    by_cases hbx : b.2 < x.2
    · have hstep : pickStep b x = x := by simp [pickStep, hbx]
      rcases ih x with ⟨heq, hall⟩ | ⟨i, hi, heq, hlt, hfirst, hall⟩
      · refine Or.inr ⟨0, by simp, ?_, by simpa using hbx, ?_, ?_⟩
        · show xs.foldl pickStep (pickStep b x) = x
          rw [hstep, heq]
        · intro j hj; omega
        · intro y hy
          rcases List.mem_cons.mp hy with rfl | hy
          · exact le_refl _
          · exact hall y hy
      · refine Or.inr ⟨i + 1, by simpa using hi, ?_, ?_, ?_, ?_⟩
        · show xs.foldl pickStep (pickStep b x) = xs.get ⟨i, hi⟩
          rw [hstep, heq]
        · exact lt_trans hbx hlt
        · intro j hj
          match j, hj with
          | 0, _ => exact hlt
          | j + 1, hj => exact hfirst j (by omega)
        · intro y hy
          rcases List.mem_cons.mp hy with rfl | hy
          · exact le_of_lt hlt
          · exact hall y hy
    · have hstep : pickStep b x = b := by simp [pickStep, hbx]
      rcases ih b with ⟨heq, hall⟩ | ⟨i, hi, heq, hlt, hfirst, hall⟩
      · refine Or.inl ⟨?_, ?_⟩
        · show xs.foldl pickStep (pickStep b x) = b
          rw [hstep, heq]
        · intro y hy
          rcases List.mem_cons.mp hy with rfl | hy
          · exact le_of_not_lt hbx
          · exact hall y hy
      · refine Or.inr ⟨i + 1, by simpa using hi, ?_, ?_, ?_, ?_⟩
        · show xs.foldl pickStep (pickStep b x) = xs.get ⟨i, hi⟩
          rw [hstep, heq]
        · exact hlt
        · intro j hj
          match j, hj with
          | 0, _ => exact lt_of_le_of_lt (le_of_not_lt hbx) hlt
          | j + 1, hj => exact hfirst j (by omega)
        · intro y hy
          rcases List.mem_cons.mp hy with rfl | hy
          · exact le_of_lt (lt_of_le_of_lt (le_of_not_lt hbx) hlt)
          · exact hall y hy

/-- C2: `classify_query` returns `general` exactly when every category
scores zero; otherwise it returns an entry of the (declaration-ordered)
score list that attains the maximal score while every earlier-declared
category scores strictly less — i.e. the strictly highest count wins and
ties go to the first-declared category. -/
theorem classify_query_spec (q : String) :
    ((∀ p ∈ catScores q, p.2 = 0) → classify_query q = QueryCategory.general) ∧
    ((∃ p ∈ catScores q, 0 < p.2) →
      ∃ i, ∃ hi : i < (catScores q).length,
        classify_query q = ((catScores q).get ⟨i, hi⟩).1 ∧
        (∀ p ∈ catScores q, p.2 ≤ ((catScores q).get ⟨i, hi⟩).2) ∧
        (∀ j (hj : j < i),
          ((catScores q).get ⟨j, by omega⟩).2 < ((catScores q).get ⟨i, hi⟩).2)) := by
  constructor
  · intro hz
    have hm : maxScore (catScores q) = 0 := foldl_max_zero _ hz
    simp [classify_query, hm]
  · intro hpos
    obtain ⟨p, hp, hppos⟩ := hpos
    have hmax : 0 < maxScore (catScores q) :=
      lt_of_lt_of_le hppos (foldl_max_ge_mem _ 0 p hp)
    have hcl : classify_query q = (firstMax (catScores q)).1 := by
      simp [classify_query, hmax]
    rcases hsc : catScores q with _ | ⟨a, as⟩
    · rw [hsc] at hp
      exact absurd hp (List.not_mem_nil p)
    · rw [hsc] at hcl
      rcases foldl_pickStep_spec as a with ⟨heq, hall⟩ | ⟨i, hi, heq, hlt, hfirst, hall⟩
      · refine ⟨0, by simp, ?_, ?_, ?_⟩
        · rw [hcl]
          show (as.foldl pickStep a).1 = _
          rw [heq]
          rfl
        · intro y hy
          rcases List.mem_cons.mp hy with rfl | hy
          · exact le_refl _
          · exact hall y hy
        · intro j hj; omega
      · refine ⟨i + 1, by simpa using hi, ?_, ?_, ?_⟩
        · rw [hcl]
          show (as.foldl pickStep a).1 = _
          rw [heq]
          rfl
        · intro y hy
          rcases List.mem_cons.mp hy with rfl | hy
          · exact le_of_lt hlt
          · exact hall y hy
        · intro j hj
          match j, hj with
          | 0, _ => exact hlt
          | j + 1, hj => exact hfirst j (by omega)

/-- Witness for C2: the general fallback at a keyword-free text and the
first-max pick at a text matching the symptoms keyword "lump". -/
theorem classify_query_spec_witness :
    ((∀ p ∈ catScores "hello there", p.2 = 0) ∧
     classify_query "hello there" = QueryCategory.general) ∧
    ((∃ p ∈ catScores "I found a lump", 0 < p.2) ∧
     (∃ i, ∃ hi : i < (catScores "I found a lump").length,
       classify_query "I found a lump"
         = ((catScores "I found a lump").get ⟨i, hi⟩).1 ∧
       (∀ p ∈ catScores "I found a lump",
         p.2 ≤ ((catScores "I found a lump").get ⟨i, hi⟩).2) ∧
       (∀ j (hj : j < i),
         ((catScores "I found a lump").get ⟨j, by omega⟩).2
           < ((catScores "I found a lump").get ⟨i, hi⟩).2))) :=
  ⟨⟨by decide, (classify_query_spec "hello there").1 (by decide)⟩,
   ⟨by decide, (classify_query_spec "I found a lump").2 (by decide)⟩⟩

/-- Evaluating `msgsOf` at an absent session. -/
theorem msgsOf_none {st : AgentState} {sid : String}
    (h : st.sessions sid = none) : msgsOf st sid = [] := by
  unfold msgsOf
  rw [h]

/-- Evaluating `msgsOf` at a present session. -/
theorem msgsOf_some {st : AgentState} {sid : String} {sd : SessionData}
    (h : st.sessions sid = some sd) : msgsOf st sid = sd.messages := by
  unfold msgsOf
  rw [h]

/-- Applying one operation preserves the 10-message bound on every
stored history. -/
theorem applyOp_len (st : AgentState) (op : SessionOp)
    (h : ∀ sid sd, st.sessions sid = some sd → sd.messages.length ≤ 10) :
    ∀ sid sd, (applyOp st op).sessions sid = some sd → sd.messages.length ≤ 10 := by
  intro sid sd hsd
  cases op with
  | getOrCreate sid? =>
    simp only [applyOp] at hsd
    unfold get_or_create_session at hsd
    dsimp only at hsd
    by_cases hc : (sid?.getD "") ≠ "" ∧ ((st.sessions (sid?.getD "")).isSome = true)
    · rw [if_pos hc] at hsd
      dsimp only at hsd
      by_cases hk : sid = sid?.getD ""
      · rw [if_pos hk] at hsd
        obtain ⟨sd0, hsd0, hmap⟩ := Option.map_eq_some'.mp hsd
        rw [← hmap]
        exact h _ sd0 hsd0
      · rw [if_neg hk] at hsd
        exact h sid sd hsd
    · rw [if_neg hc] at hsd
      dsimp only at hsd
      by_cases hk : sid = (if (sid?.getD "") ≠ "" then sid?.getD "" else freshToken st.uuidCtr)
      · rw [if_pos hk] at hsd
        cases hsd
        simp
      · rw [if_neg hk] at hsd
        exact h sid sd hsd
  | append s role content =>
    simp only [applyOp] at hsd
    unfold add_message at hsd
    rcases hss : st.sessions s with _ | sd0 <;> rw [hss] at hsd <;> dsimp only at hsd
    · exact h sid sd hsd
    · by_cases hk : sid = s
      · rw [if_pos hk] at hsd
        cases hsd
        exact pyTakeLast_length_le 10 _ (by omega)
      · rw [if_neg hk] at hsd
        exact h sid sd hsd
  | history s m =>
    exact h sid sd hsd
  | clear s =>
    simp only [applyOp] at hsd
    unfold clear_session at hsd
    dsimp only at hsd
    by_cases hk : sid = s
    · rw [if_pos hk] at hsd
      exact Option.noConfusion hsd
    · rw [if_neg hk] at hsd
      exact h sid sd hsd

/-- Running any operation sequence preserves the 10-message bound. -/
theorem runOps_len :
    ∀ (ops : List SessionOp) (st : AgentState),
      (∀ sid sd, st.sessions sid = some sd → sd.messages.length ≤ 10) →
      ∀ sid sd, (runOps ops st).sessions sid = some sd → sd.messages.length ≤ 10 := by
  intro ops
  induction ops with
  | nil => intro st h; exact h
  | cons op ops ih =>
    intro st h
    exact ih (applyOp st op) (applyOp_len st op h)

/-- One operation extends a session's stored history by at most its
ghost log, as a suffix. -/
theorem applyOp_msgs_suffix (st : AgentState) (op : SessionOp) (sid : String) :
    msgsOf (applyOp st op) sid <:+ msgsOf st sid ++ opLog sid st op := by
  cases op with
  | getOrCreate sid? =>
    rw [show opLog sid st (.getOrCreate sid?) = [] from rfl, List.append_nil]
    by_cases hc : (sid?.getD "") ≠ "" ∧ ((st.sessions (sid?.getD "")).isSome = true)
    · by_cases hk : sid = sid?.getD ""
      · rcases hss : st.sessions (sid?.getD "") with _ | sd0
        · exact absurd hc.2 (by simp [hss])
        · have hss2 : st.sessions sid = some sd0 := by rw [hk]; exact hss
          have hs' : (applyOp st (.getOrCreate sid?)).sessions sid
              = some { sd0 with last_active := st.now } := by
            simp only [applyOp]
            unfold get_or_create_session
            dsimp only
            rw [if_pos hc]
            dsimp only
            rw [if_pos hk, hss]
            rfl
          simp only [msgsOf_some hs', msgsOf_some hss2]
          exact List.suffix_rfl
      · have hs' : (applyOp st (.getOrCreate sid?)).sessions sid = st.sessions sid := by
          simp only [applyOp]
          unfold get_or_create_session
          dsimp only
          rw [if_pos hc]
          dsimp only
          rw [if_neg hk]
        simp only [show msgsOf (applyOp st (.getOrCreate sid?)) sid = msgsOf st sid by
              unfold msgsOf; rw [hs']]
        exact List.suffix_rfl
    · by_cases hk : sid = (if (sid?.getD "") ≠ "" then sid?.getD "" else freshToken st.uuidCtr)
      · have hs' : (applyOp st (.getOrCreate sid?)).sessions sid
            = some ⟨st.now, st.now, []⟩ := by
          simp only [applyOp]
          unfold get_or_create_session
          dsimp only
          rw [if_neg hc]
          dsimp only
          rw [if_pos hk]
        rw [msgsOf_some hs']
        exact List.nil_suffix
      · have hs' : (applyOp st (.getOrCreate sid?)).sessions sid = st.sessions sid := by
          simp only [applyOp]
          unfold get_or_create_session
          dsimp only
          rw [if_neg hc]
          dsimp only
          rw [if_neg hk]
        simp only [show msgsOf (applyOp st (.getOrCreate sid?)) sid = msgsOf st sid by
              unfold msgsOf; rw [hs']]
        exact List.suffix_rfl
  | append s role content =>
    rcases hss : st.sessions s with _ | sd0
    · have ha : applyOp st (.append s role content) = st := by
        simp only [applyOp]
        unfold add_message
        rw [hss]
      have hlog : opLog sid st (.append s role content) = [] := by
        simp [opLog, hss]
      simp only [ha, hlog, List.append_nil]
      exact List.suffix_rfl
    · by_cases hk : s = sid
      · subst hk
        have hlog : opLog s st (.append s role content) = [⟨role, content, st.now⟩] := by
          simp [opLog, hss]
        have hs' : (applyOp st (.append s role content)).sessions s
            = some { sd0 with
                     messages := pyTakeLast 10 (sd0.messages ++ [⟨role, content, st.now⟩]) } := by
          simp only [applyOp]
          unfold add_message
          rw [hss]
          dsimp only
          rw [if_pos rfl]
        simp only [msgsOf_some hs', msgsOf_some hss, hlog]
        exact pyTakeLast_suffix 10 _
      · have hk2 : sid ≠ s := fun hx => hk hx.symm
        have hlog : opLog sid st (.append s role content) = [] := by
          simp [opLog, hk]
        have hs' : (applyOp st (.append s role content)).sessions sid = st.sessions sid := by
          simp only [applyOp]
          unfold add_message
          rw [hss]
          dsimp only
          rw [if_neg hk2]
        simp only [hlog, List.append_nil,
            show msgsOf (applyOp st (.append s role content)) sid = msgsOf st sid by
              unfold msgsOf; rw [hs']]
        exact List.suffix_rfl
  | history s m =>
    simp only [show opLog sid st (.history s m) = [] from rfl, List.append_nil]
    exact List.suffix_rfl
  | clear s =>
    rw [show opLog sid st (.clear s) = [] from rfl, List.append_nil]
    by_cases hk : sid = s
    · have hs' : (applyOp st (.clear s)).sessions sid = none := by
        simp only [applyOp]
        unfold clear_session
        dsimp only
        rw [if_pos hk]
      rw [msgsOf_none hs']
      exact List.nil_suffix
    · have hs' : (applyOp st (.clear s)).sessions sid = st.sessions sid := by
        simp only [applyOp]
        unfold clear_session
        dsimp only
        rw [if_neg hk]
      simp only [show msgsOf (applyOp st (.clear s)) sid = msgsOf st sid by
            unfold msgsOf; rw [hs']]
      exact List.suffix_rfl

/-- A session's stored history after running an operation sequence is a
suffix of its starting history followed by the ghost append log. -/
theorem runOps_msgs_suffix :
    ∀ (ops : List SessionOp) (st : AgentState) (sid : String),
      msgsOf (runOps ops st) sid <:+ msgsOf st sid ++ appendLogFrom sid ops st := by
  intro ops
  induction ops with
  | nil =>
    intro st sid
    show msgsOf st sid <:+ msgsOf st sid ++ []
    rw [List.append_nil]
  | cons op ops ih =>
    intro st sid
    have h1 := ih (applyOp st op) sid
    have h2 := suffix_append_right (appendLogFrom sid ops (applyOp st op))
      (applyOp_msgs_suffix st op sid)
    have h3 := h1.trans h2
    rw [List.append_assoc] at h3
    exact h3

/-- C4: after every operation sequence from the empty store, every
existing session's history has at most 10 messages and is a suffix of
the sequence of messages appended to that session (so it holds the most
recently appended messages, in append order, oldest evicted first); in
particular, after creating a session and appending 15 messages, the
stored history is exactly the last 10 appended messages in append
order. -/
theorem session_history_bounded :
    (∀ ops sid sd, (runOps ops initState).sessions sid = some sd →
      sd.messages.length ≤ 10 ∧ sd.messages <:+ appendLogFrom sid ops initState) ∧
    (runOps scenarioOps initState).sessions "s" = some ⟨0, 0, expectedLast10⟩ := by
  constructor
  · intro ops sid sd h
    constructor
    · exact runOps_len ops initState
        (by intro sid' sd' h'; exact absurd h' (by simp [initState])) sid sd h
    · have hsuf := runOps_msgs_suffix ops initState sid
      rw [show msgsOf initState sid = [] from rfl, List.nil_append,
          msgsOf_some h] at hsuf
      exact hsuf
  · decide

/-- Witness for C4: the 15-append scenario, whose final history is the
last 10 messages, bounded by 10 and a suffix of the scenario's append
log. -/
theorem session_history_bounded_witness :
    (runOps scenarioOps initState).sessions "s" = some ⟨0, 0, expectedLast10⟩ ∧
    expectedLast10.length ≤ 10 ∧
    expectedLast10 <:+ appendLogFrom "s" scenarioOps initState :=
  ⟨by decide,
   session_history_bounded.1 scenarioOps "s" ⟨0, 0, expectedLast10⟩ (by decide)⟩
